import Mathlib

/-!
Verification of the attendance projection core of `server.js`.

The Projection Engine is three pure functions over (attended, total, target):
`calculateCurrentPercentage`, `classesNeededForTarget` and `classesToBunk`.
JavaScript numbers are modelled as exact rationals (`ℚ`); the scraped counts
`attended` and `total` come from `parseInt` on `\d+` matches, hence `ℕ`.
The two unbounded `while (true)` loops are modelled with an explicit fuel
parameter returning `Option ℕ`: `none` means the loop has not yet returned
within `fuel` iterations, and termination of the JavaScript loop is the
existence of a fuel on which the model returns `some`.

The Result Aggregator is the body of the `/api/attendance` handler after the
scrape: the empty-data check, the `parseFloat(target) || 75.0` default, and
the per-subject enrichment loop. The parsed target is modelled as
`Option ℚ` (`none` for an absent or non-numeric input, whose `parseFloat`
is `NaN`), and the handler outcome as `Except String`.
-/

/-- `calculateCurrentPercentage` from `server.js`: returns `0.0` when
`total === 0`, otherwise `(attended / total) * 100`. -/
def calculateCurrentPercentage (attended total : ℕ) : ℚ :=
  if total = 0 then 0 else ((attended : ℚ) / (total : ℚ)) * 100

/-- The `while (true)` loop of `classesNeededForTarget`, with fuel.
The accumulator `classesToAttend` is incremented, then the new percentage is
tested against the target; `none` means the loop did not return within
`fuel` further iterations. -/
def classesNeededGo (attended total : ℕ) (target : ℚ) : ℕ → ℕ → Option ℕ
  | 0, _ => none
  | fuel + 1, classesToAttend =>
      if calculateCurrentPercentage (attended + (classesToAttend + 1))
          (total + (classesToAttend + 1)) ≥ target then
        some (classesToAttend + 1)
      else
        classesNeededGo attended total target fuel (classesToAttend + 1)

/-- `classesNeededForTarget` from `server.js`: returns `0` when the current
percentage already meets the target, otherwise searches upward from
`classesToAttend = 1`. -/
def classesNeededForTarget (attended total : ℕ) (target : ℚ) (fuel : ℕ) :
    Option ℕ :=
  if calculateCurrentPercentage attended total ≥ target then some 0
  else classesNeededGo attended total target fuel 0

/-- The `while (true)` loop of `classesToBunk`, with fuel: at candidate
`bunkableClasses = b` it tests `total + b + 1` and returns `b` when the
percentage drops below the target, else increments `b`. -/
def classesToBunkGo (attended total : ℕ) (target : ℚ) : ℕ → ℕ → Option ℕ
  | 0, _ => none
  | fuel + 1, bunkableClasses =>
      if calculateCurrentPercentage attended (total + bunkableClasses + 1)
          < target then
        some bunkableClasses
      else
        classesToBunkGo attended total target fuel (bunkableClasses + 1)

/-- `classesToBunk` from `server.js`: returns `0` when the current percentage
is already below target, otherwise searches upward from `bunkableClasses = 0`. -/
def classesToBunk (attended total : ℕ) (target : ℚ) (fuel : ℕ) : Option ℕ :=
  if calculateCurrentPercentage attended total < target then some 0
  else classesToBunkGo attended total target fuel 0

/-- Termination of the JavaScript `classesNeededForTarget` loop: some finite
fuel makes the model return a value. -/
def classesNeededTerminates (attended total : ℕ) (target : ℚ) : Prop :=
  ∃ fuel k, classesNeededForTarget attended total target fuel = some k

/-- Termination of the JavaScript `classesToBunk` loop: some finite fuel
makes the model return a value. -/
def classesToBunkTerminates (attended total : ℕ) (target : ℚ) : Prop :=
  ∃ fuel b, classesToBunk attended total target fuel = some b

/-- One scraped per-subject record: `{ attended, total }`. -/
structure AttendanceRecord where
  attended : ℕ
  total : ℕ
deriving Repr, DecidableEq

/-- One enriched per-subject record as built in the handler's result loop.
The two searched fields carry the fuel-limited loop results. -/
structure ProjectionResult where
  attended : ℕ
  total : ℕ
  percentage : ℚ
  needed : Option ℕ
  bunks_available : Option ℕ
deriving DecidableEq

/-- The effective target of the handler, `parseFloat(target) || 75.0`:
an absent or non-numeric input parses to `NaN` (modelled `none`) and falls
back to `75.0`; a parse result of `0` is falsy in JavaScript and also falls
back; any other parsed number is used as is. -/
def effectiveTarget : Option ℚ → ℚ
  | none => 75
  | some x => if x = 0 then 75 else x

/-- The Result Aggregator: the `/api/attendance` handler body after a
successful scrape. An empty raw mapping yields the 500-error branch
`"Could not parse any attendance data."`; otherwise every subject is mapped
to its enriched record, returned together with the effective target. -/
def aggregate (scrapedData : List (String × AttendanceRecord))
    (parsedTarget : Option ℚ) (fuel : ℕ) :
    Except String (List (String × ProjectionResult) × ℚ) :=
  if scrapedData.length = 0 then
    Except.error "Could not parse any attendance data."
  else
    let targetNum := effectiveTarget parsedTarget
    Except.ok
      (scrapedData.map fun p =>
        (p.1,
          { attended := p.2.attended
            total := p.2.total
            percentage := calculateCurrentPercentage p.2.attended p.2.total
            needed := classesNeededForTarget p.2.attended p.2.total targetNum fuel
            bunks_available := classesToBunk p.2.attended p.2.total targetNum fuel }),
       targetNum)

lemma calculateCurrentPercentage_eq (attended total : ℕ) :
    calculateCurrentPercentage attended total =
      if total = 0 then 0 else 100 * (attended : ℚ) / (total : ℚ) := by
  unfold calculateCurrentPercentage
  split
  · rfl
  · rw [div_mul_eq_mul_div, mul_comm]

lemma classesNeededGo_exact (attended total : ℕ) (target : ℚ) :
    ∀ (fuel m start : ℕ), 1 ≤ m → m ≤ fuel →
      target ≤ calculateCurrentPercentage (attended + (start + m))
        (total + (start + m)) →
      (∀ j, start < j → j < start + m →
        calculateCurrentPercentage (attended + j) (total + j) < target) →
      classesNeededGo attended total target fuel start = some (start + m) := by
  intro fuel
  induction fuel with
  | zero => intro m start hm hfuel _ _; omega
  | succ f ih =>
      intro m start hm hfuel hcond hlt
      by_cases h1 : target ≤ calculateCurrentPercentage (attended + (start + 1))
          (total + (start + 1))
      · have hm1 : m = 1 := by
          by_contra hne
          exact absurd h1 (not_le.mpr (hlt (start + 1) (by omega) (by omega)))
        subst hm1
        simp only [classesNeededGo, ge_iff_le]
        rw [if_pos h1]
      · have hne : m ≠ 1 := by
          intro he
          subst he
          exact h1 hcond
        simp only [classesNeededGo, ge_iff_le]
        rw [if_neg h1]
        have hres := ih (m - 1) (start + 1) (by omega) (by omega)
          (by
            have he : start + 1 + (m - 1) = start + m := by omega
            rw [he]
            exact hcond)
          (by
            intro j hj1 hj2
            exact hlt j (by omega) (by omega))
        rw [hres]
        have he2 : start + 1 + (m - 1) = start + m := by omega
        rw [he2]

lemma classesNeededGo_isSome (attended total : ℕ) (target : ℚ) :
    ∀ (fuel start : ℕ), 1 ≤ fuel →
      target ≤ calculateCurrentPercentage (attended + (start + fuel))
        (total + (start + fuel)) →
      ∃ m, classesNeededGo attended total target fuel start = some m := by
  intro fuel
  induction fuel with
  | zero => intro start h1 _; omega
  | succ f ih =>
      intro start _ hcond
      by_cases h1 : target ≤ calculateCurrentPercentage (attended + (start + 1))
          (total + (start + 1))
      · exact ⟨start + 1, by simp only [classesNeededGo, ge_iff_le]; rw [if_pos h1]⟩
      · have hf : 1 ≤ f := by
          rcases Nat.eq_zero_or_pos f with hf0 | hf0
          · subst hf0
            exact absurd hcond h1
          · exact hf0
        obtain ⟨m, hm⟩ := ih (start + 1) hf
          (by
            have he : start + 1 + f = start + (f + 1) := by omega
            rw [he]
            exact hcond)
        exact ⟨m, by simp only [classesNeededGo, ge_iff_le]; rw [if_neg h1]; exact hm⟩

lemma classesNeededGo_none (attended total : ℕ) (target : ℚ)
    (h : ∀ j, 1 ≤ j →
      calculateCurrentPercentage (attended + j) (total + j) < target) :
    ∀ fuel start, classesNeededGo attended total target fuel start = none := by
  intro fuel
  induction fuel with
  | zero => intro start; rfl
  | succ f ih =>
      intro start
      simp only [classesNeededGo, ge_iff_le]
      rw [if_neg (not_le.mpr (h (start + 1) (by omega)))]
      exact ih (start + 1)

lemma classesToBunkGo_sound (attended total : ℕ) (target : ℚ) :
    ∀ (fuel start m : ℕ),
      classesToBunkGo attended total target fuel start = some m →
      start ≤ m ∧
        calculateCurrentPercentage attended (total + m + 1) < target ∧
        ∀ j, start ≤ j → j < m →
          target ≤ calculateCurrentPercentage attended (total + j + 1) := by
  intro fuel
  induction fuel with
  | zero => intro start m h; simp [classesToBunkGo] at h
  | succ f ih =>
      intro start m h
      simp only [classesToBunkGo] at h
      by_cases h1 : calculateCurrentPercentage attended (total + start + 1) < target
      · rw [if_pos h1] at h
        have hsm : start = m := by
          have := Option.some_inj.mp h
          omega
        subst hsm
        exact ⟨le_refl _, h1, fun j hj1 hj2 => by omega⟩
      · rw [if_neg h1] at h
        obtain ⟨h2, h3, h4⟩ := ih (start + 1) m h
        refine ⟨by omega, h3, fun j hj1 hj2 => ?_⟩
        rcases Nat.eq_or_lt_of_le hj1 with he | hlt2
        · subst he
          exact not_lt.mp h1
        · exact h4 j (by omega) hj2

lemma classesToBunkGo_isSome (attended total : ℕ) (target : ℚ) :
    ∀ (fuel start : ℕ),
      calculateCurrentPercentage attended (total + (start + fuel) + 1) < target →
      ∃ m, classesToBunkGo attended total target (fuel + 1) start = some m := by
  intro fuel
  induction fuel with
  | zero =>
      intro start hcond
      exact ⟨start, by simp only [classesToBunkGo]; rw [if_pos (by simpa using hcond)]⟩
  | succ f ih =>
      intro start hcond
      by_cases h1 : calculateCurrentPercentage attended (total + start + 1) < target
      · exact ⟨start, by simp only [classesToBunkGo]; rw [if_pos h1]⟩
      · obtain ⟨m, hm⟩ := ih (start + 1)
          (by
            have he : start + 1 + f = start + (f + 1) := by omega
            rw [he]
            exact hcond)
        exact ⟨m, by simp only [classesToBunkGo]; rw [if_neg h1]; exact hm⟩

lemma needCond_iff (attended total : ℕ) (target : ℚ) (j : ℕ) (hj : 1 ≤ j) :
    (target ≤ calculateCurrentPercentage (attended + j) (total + j)) ↔
      target / 100 * ((total : ℚ) + j) ≤ (attended : ℚ) + j := by
  have hpos : (0 : ℚ) < (total : ℚ) + (j : ℚ) := by
    have h1 : (1 : ℚ) ≤ (j : ℚ) := by exact_mod_cast hj
    have h2 : (0 : ℚ) ≤ (total : ℚ) := Nat.cast_nonneg total
    linarith
  unfold calculateCurrentPercentage
  rw [if_neg (by omega : ¬ (total + j = 0))]
  push_cast
  rw [div_mul_eq_mul_div, le_div_iff₀ hpos, div_mul_eq_mul_div,
    div_le_iff₀ (by norm_num : (0 : ℚ) < 100)]

/-- Claim C5: `currentPercentage(attended, total)` returns `0.0` when
`total = 0`, and `100 * attended / total` when `total > 0`. -/
theorem calculateCurrentPercentage_spec (attended total : ℕ) :
    calculateCurrentPercentage attended total =
      if total = 0 then 0 else 100 * (attended : ℚ) / (total : ℚ) :=
  calculateCurrentPercentage_eq attended total

/-- Claim C6: on an empty raw attendance mapping the Aggregator signals the
"no data extracted" error, for every parsed target and fuel; it never
returns a successful report there, since `Except.error` and `Except.ok`
are distinct constructors. -/
theorem aggregate_empty_error (parsedTarget : Option ℚ) (fuel : ℕ) :
    aggregate [] parsedTarget fuel =
      Except.error "Could not parse any attendance data." := rfl

/-- Claim C7: when the caller-supplied target is absent or not parsable
(`parseFloat` gives `NaN`, modelled `none`), the effective target is `75`,
and on non-empty data the Aggregator still succeeds — the substitution is
not surfaced as an error — reporting `75` back as the target. -/
theorem aggregate_default_target :
    effectiveTarget none = 75 ∧
      ∀ (scrapedData : List (String × AttendanceRecord)) (fuel : ℕ),
        0 < scrapedData.length →
        ∃ results, aggregate scrapedData none fuel = Except.ok (results, 75) := by
  refine ⟨rfl, fun scrapedData fuel h => ?_⟩
  unfold aggregate
  rw [if_neg (by omega)]
  exact ⟨_, rfl⟩

/-- Witness for C7 at a concrete one-subject mapping. -/
theorem aggregate_default_target_witness :
    0 < ([("MA101", AttendanceRecord.mk 3 4)] :
        List (String × AttendanceRecord)).length ∧
      ∃ results,
        aggregate [("MA101", AttendanceRecord.mk 3 4)] none 0 =
          Except.ok (results, 75) :=
  ⟨by decide,
    aggregate_default_target.2 [("MA101", AttendanceRecord.mk 3 4)] 0
      (by decide)⟩

/-- Claim C9: the Aggregator is a deterministic, stateless transform — two
calls on identical raw mappings and identical parsed targets (with the same
fuel bound) produce identical reports. -/
theorem aggregate_deterministic
    (data1 data2 : List (String × AttendanceRecord))
    (parsed1 parsed2 : Option ℚ) (fuel : ℕ)
    (hdata : data1 = data2) (hparsed : parsed1 = parsed2) :
    aggregate data1 parsed1 fuel = aggregate data2 parsed2 fuel := by
  rw [hdata, hparsed]

/-- Witness for C9 at a concrete input. -/
theorem aggregate_deterministic_witness :
    aggregate [("MA101", AttendanceRecord.mk 3 4)] (some 50) 5 =
      aggregate [("MA101", AttendanceRecord.mk 3 4)] (some 50) 5 :=
  aggregate_deterministic _ _ _ _ 5 rfl rfl

/-- Claim C10: a caller-supplied target parsing to `0` is falsy in
`parseFloat(target) || 75.0`, so the default `75` replaces it, while any
nonzero parse — in particular a negative one such as `-5` — is passed
through unchanged, and the Aggregator hands it to the Projection Engine and
reports it back as is. -/
theorem effectiveTarget_falsy_default :
    effectiveTarget (some 0) = 75 ∧
      (∀ x : ℚ, x ≠ 0 → effectiveTarget (some x) = x) ∧
      ∀ (scrapedData : List (String × AttendanceRecord)) (fuel : ℕ),
        0 < scrapedData.length →
        ∃ results,
          aggregate scrapedData (some (-5)) fuel = Except.ok (results, -5) := by
  refine ⟨rfl, fun x hx => ?_, fun scrapedData fuel h => ?_⟩
  · simp only [effectiveTarget]
    rw [if_neg hx]
  · unfold aggregate
    rw [if_neg (by omega)]
    have ht : effectiveTarget (some (-5)) = -5 := by
      simp only [effectiveTarget]
      norm_num
    rw [ht]
    exact ⟨_, rfl⟩

/-- Witness for C10: the nonzero pass-through at `-5` and the aggregator
branch at a concrete one-subject mapping. -/
theorem effectiveTarget_falsy_default_witness :
    ((-5 : ℚ) ≠ 0 ∧ effectiveTarget (some (-5)) = -5) ∧
      (0 < ([("MA101", AttendanceRecord.mk 3 4)] :
          List (String × AttendanceRecord)).length ∧
        ∃ results,
          aggregate [("MA101", AttendanceRecord.mk 3 4)] (some (-5)) 0 =
            Except.ok (results, -5)) :=
  ⟨⟨by norm_num, effectiveTarget_falsy_default.2.1 (-5) (by norm_num)⟩,
    ⟨by decide,
      effectiveTarget_falsy_default.2.2 [("MA101", AttendanceRecord.mk 3 4)] 0
        (by decide)⟩⟩

/-- Claim C1 (amended): under `attended ≤ total` and a current percentage at
or above the target, whenever `classesToBunk` returns `b`, that `b` is the
largest integer with `100 * attended / (total + b) ≥ target` — the threshold
check of the returned value uses `total + b`, not `total + b + 1`; in
particular `classesToBunk 30 35 75` returns `5`, not `4`. -/
theorem classesToBunk_returns_largest :
    (∀ (attended total : ℕ) (target : ℚ) (fuel b : ℕ),
        attended ≤ total →
        target ≤ calculateCurrentPercentage attended total →
        classesToBunk attended total target fuel = some b →
        target ≤ 100 * (attended : ℚ) / ((total : ℚ) + (b : ℚ)) ∧
          ∀ j : ℕ, target ≤ 100 * (attended : ℚ) / ((total : ℚ) + (j : ℚ)) →
            j ≤ b) ∧
      classesToBunk 30 35 75 10 = some 5 := by
  constructor
  · intro attended total target fuel b hat hge hres
    unfold classesToBunk at hres
    rw [if_neg (not_lt.mpr hge)] at hres
    obtain ⟨-, hcb, hprev⟩ :=
      classesToBunkGo_sound attended total target fuel 0 b hres
    have hcb2 : 100 * (attended : ℚ) / ((total : ℚ) + (b : ℚ) + 1) < target := by
      rw [calculateCurrentPercentage_eq,
        if_neg (by omega : ¬ (total + b + 1 = 0))] at hcb
      have hc : ((total + b + 1 : ℕ) : ℚ) = (total : ℚ) + (b : ℚ) + 1 := by
        push_cast
        ring
      rw [hc] at hcb
      exact hcb
    constructor
    · rcases Nat.eq_zero_or_pos b with hb0 | hb1
      · subst hb0
        rcases Nat.eq_zero_or_pos total with ht0 | ht1
        · subst ht0
          have ha0 : attended = 0 := by omega
          subst ha0
          have hz : calculateCurrentPercentage 0 0 = 0 := rfl
          rw [hz] at hge
          norm_num
          exact hge
        · rw [calculateCurrentPercentage_eq, if_neg (by omega)] at hge
          push_cast
          simpa using hge
      · have hp := hprev (b - 1) (by omega) (by omega)
        have he : total + (b - 1) + 1 = total + b := by omega
        rw [he, calculateCurrentPercentage_eq, if_neg (by omega)] at hp
        have hc : ((total + b : ℕ) : ℚ) = (total : ℚ) + (b : ℚ) := by
          push_cast
          ring
        rw [hc] at hp
        exact hp
    · intro j hj
      by_contra hjb
      push_neg at hjb
      have hle : (total : ℚ) + (b : ℚ) + 1 ≤ (total : ℚ) + (j : ℚ) := by
        have hc : ((b : ℚ) + 1) ≤ (j : ℚ) := by exact_mod_cast hjb
        linarith
      have hmono : 100 * (attended : ℚ) / ((total : ℚ) + (j : ℚ)) ≤
          100 * (attended : ℚ) / ((total : ℚ) + (b : ℚ) + 1) :=
        div_le_div_of_nonneg_left (by positivity) (by positivity) hle
      linarith
  · norm_num [classesToBunk, classesToBunkGo, calculateCurrentPercentage]

/-- Witness for C1 at the spec's own example: with attended 30, total 35 and
target 75 the function returns 5, and 5 is the largest `b` with
`100 * 30 / (35 + b) ≥ 75`. -/
theorem classesToBunk_returns_largest_witness :
    (30 : ℕ) ≤ 35 ∧ (75 : ℚ) ≤ calculateCurrentPercentage 30 35 ∧
      ((75 : ℚ) ≤ 100 * ((30 : ℕ) : ℚ) / (((35 : ℕ) : ℚ) + ((5 : ℕ) : ℚ)) ∧
        ∀ j : ℕ,
          (75 : ℚ) ≤ 100 * ((30 : ℕ) : ℚ) / (((35 : ℕ) : ℚ) + (j : ℚ)) →
          j ≤ 5) :=
  ⟨by norm_num, by norm_num [calculateCurrentPercentage],
    classesToBunk_returns_largest.1 30 35 75 10 5 (by norm_num)
      (by norm_num [calculateCurrentPercentage])
      classesToBunk_returns_largest.2⟩

/-- Counterexample for C1 as stated: the claim's characterization demands
`classesBunkable(30, 35, 75) = 4` (the largest `b` with
`100 * 30 / (35 + b + 1) ≥ 75`), but the code returns `5`. -/
theorem classesToBunk_example_not_four :
    classesToBunk 30 35 75 10 = some 5 ∧
      (classesToBunk 30 35 75 10 = some 4) = False := by
  have h : classesToBunk 30 35 75 10 = some 5 := by
    norm_num [classesToBunk, classesToBunkGo, calculateCurrentPercentage]
  refine ⟨h, eq_false ?_⟩
  rw [h]
  simp

/-- Claim C2: when the current percentage is below the target, the returned
value of `classesNeededForTarget` — with fuel at least the answer itself —
is the smallest `k ≥ 1` with `(attended + k) ≥ (target/100) * (total + k)`;
in particular `classesNeededForTarget 20 30 75` returns `10`. -/
theorem classesNeededForTarget_least :
    (∀ (attended total : ℕ) (target : ℚ) (k fuel : ℕ),
        attended ≤ total →
        calculateCurrentPercentage attended total < target →
        1 ≤ k →
        target / 100 * ((total : ℚ) + (k : ℚ)) ≤ (attended : ℚ) + (k : ℚ) →
        (∀ j : ℕ, 1 ≤ j →
          target / 100 * ((total : ℚ) + (j : ℚ)) ≤ (attended : ℚ) + (j : ℚ) →
          k ≤ j) →
        k ≤ fuel →
        classesNeededForTarget attended total target fuel = some k) ∧
      classesNeededForTarget 20 30 75 10 = some 10 := by
  constructor
  · intro attended total target k fuel hat hguard hk hcond hmin hfuel
    unfold classesNeededForTarget
    rw [if_neg (not_le.mpr hguard)]
    have hres := classesNeededGo_exact attended total target fuel k 0 hk hfuel
      (by
        rw [Nat.zero_add]
        exact (needCond_iff attended total target k hk).mpr hcond)
      (by
        intro j hj1 hj2
        by_contra hc
        push_neg at hc
        have hmk := hmin j hj1 ((needCond_iff attended total target j hj1).mp hc)
        omega)
    rw [hres, Nat.zero_add]
  · norm_num [classesNeededForTarget, classesNeededGo, calculateCurrentPercentage]

/-- Witness for C2 at the spec's example: with attended 20, total 30 and
target 75 the minimal k is 10 and the function returns 10. -/
theorem classesNeededForTarget_least_witness :
    (20 : ℕ) ≤ 30 ∧ calculateCurrentPercentage 20 30 < 75 ∧
      classesNeededForTarget 20 30 75 10 = some 10 :=
  ⟨by norm_num, by norm_num [calculateCurrentPercentage],
    classesNeededForTarget_least.1 20 30 75 10 10 (by norm_num)
      (by norm_num [calculateCurrentPercentage]) (by norm_num)
      (by norm_num)
      (fun j hj hcond => by
        have h10 : (10 : ℚ) ≤ (j : ℚ) := by linarith
        exact_mod_cast h10)
      (by norm_num)⟩

lemma classesNeededTerminates_of_cond (attended total : ℕ) (target : ℚ)
    (m : ℕ) (hm : 1 ≤ m)
    (hcond : target ≤ calculateCurrentPercentage (attended + m) (total + m)) :
    classesNeededTerminates attended total target := by
  by_cases hguard : target ≤ calculateCurrentPercentage attended total
  · exact ⟨0, 0, by unfold classesNeededForTarget; rw [if_pos hguard]⟩
  · obtain ⟨res, hres⟩ := classesNeededGo_isSome attended total target m 0 hm
      (by rw [Nat.zero_add]; exact hcond)
    exact ⟨m, res, by unfold classesNeededForTarget; rw [if_neg hguard]; exact hres⟩

/-- Claim C3 (amended): the linear search of `classesNeededForTarget`
terminates for every target strictly below 100, and for target ≤ 100 when
`attended ≥ total`; at target exactly 100 with `attended < total` the new
percentage stays strictly below 100 forever, so the loop never returns. -/
theorem classesNeededForTarget_terminates (attended total : ℕ) (target : ℚ)
    (h : target < 100 ∨ (target ≤ 100 ∧ total ≤ attended)) :
    classesNeededTerminates attended total target := by
  rcases h with hlt | ⟨hle, hta⟩
  · rcases le_or_lt target 0 with htneg | htpos
    · refine classesNeededTerminates_of_cond attended total target 1 (by omega) ?_
      rw [calculateCurrentPercentage_eq, if_neg (by omega)]
      have hnn : (0 : ℚ) ≤ 100 * ((attended + 1 : ℕ) : ℚ) / ((total + 1 : ℕ) : ℚ) := by
        positivity
      linarith
    · set m : ℕ := Nat.ceil (target * (total : ℚ) / (100 - target)) + 1 with hm
      refine classesNeededTerminates_of_cond attended total target m (by omega) ?_
      rw [calculateCurrentPercentage_eq, if_neg (by omega)]
      have hden : (0 : ℚ) < ((total + m : ℕ) : ℚ) := by
        have : 0 < total + m := by omega
        exact_mod_cast this
      rw [le_div_iff₀ hden]
      have hcast : ((total + m : ℕ) : ℚ) = (total : ℚ) + (m : ℚ) := by
        push_cast
        ring
      have hcast2 : ((attended + m : ℕ) : ℚ) = (attended : ℚ) + (m : ℚ) := by
        push_cast
        ring
      rw [hcast, hcast2]
      have hq : target * (total : ℚ) / (100 - target) ≤ (m : ℚ) := by
        have h1 : target * (total : ℚ) / (100 - target) ≤
            (Nat.ceil (target * (total : ℚ) / (100 - target)) : ℚ) :=
          Nat.le_ceil _
        have h2 : (Nat.ceil (target * (total : ℚ) / (100 - target)) : ℚ) ≤ (m : ℚ) := by
          have : Nat.ceil (target * (total : ℚ) / (100 - target)) ≤ m := by omega
          exact_mod_cast this
        linarith
      have h3 : target * (total : ℚ) ≤ (m : ℚ) * (100 - target) :=
        (div_le_iff₀ (by linarith)).mp hq
      have h4 : (0 : ℚ) ≤ (attended : ℚ) := Nat.cast_nonneg attended
      nlinarith
  · refine classesNeededTerminates_of_cond attended total target 1 (by omega) ?_
    rw [calculateCurrentPercentage_eq, if_neg (by omega)]
    have hden : (0 : ℚ) < ((total + 1 : ℕ) : ℚ) := by
      have : 0 < total + 1 := by omega
      exact_mod_cast this
    rw [le_div_iff₀ hden]
    have hnum : ((total + 1 : ℕ) : ℚ) ≤ ((attended + 1 : ℕ) : ℚ) := by
      have : total + 1 ≤ attended + 1 := by omega
      exact_mod_cast this
    nlinarith [hden]

/-- Witness for C3 at attended 20, total 30, target 75 < 100. -/
theorem classesNeededForTarget_terminates_witness :
    ((75 : ℚ) < 100 ∨ ((75 : ℚ) ≤ 100 ∧ (30 : ℕ) ≤ 20)) ∧
      classesNeededTerminates 20 30 75 :=
  ⟨Or.inl (by norm_num),
    classesNeededForTarget_terminates 20 30 75 (Or.inl (by norm_num))⟩

/-- Counterexample for C3 as stated: at attended 0, total 1 and target
exactly 100 — allowed by the claim's "every target ≤ 100" — the loop never
reaches a satisfying k, since `100 * k / (1 + k) < 100` for every k. -/
theorem classesNeededForTarget_hundred_diverges :
    classesNeededTerminates 0 1 100 = False := by
  apply eq_false
  rintro ⟨fuel, k, hk⟩
  have hcond : ∀ j, 1 ≤ j →
      calculateCurrentPercentage (0 + j) (1 + j) < 100 := by
    intro j hj
    rw [calculateCurrentPercentage_eq, if_neg (by omega)]
    have hden : (0 : ℚ) < ((1 + j : ℕ) : ℚ) := by
      have : 0 < 1 + j := by omega
      exact_mod_cast this
    rw [div_lt_iff₀ hden]
    have hlt : ((0 + j : ℕ) : ℚ) < ((1 + j : ℕ) : ℚ) := by
      have : 0 + j < 1 + j := by omega
      exact_mod_cast this
    nlinarith
  have hnone := classesNeededGo_none 0 1 100 hcond fuel 0
  unfold classesNeededForTarget at hk
  rw [if_neg (by norm_num [calculateCurrentPercentage])] at hk
  rw [hnone] at hk
  exact Option.noConfusion hk

/-- Claim C4: for every attended, total and strictly positive target, the
search of `classesToBunk` terminates: the percentage at `total + b + 1`
eventually drops below the target. -/
theorem classesToBunk_terminates (attended total : ℕ) (target : ℚ)
    (htarget : 0 < target) :
    classesToBunkTerminates attended total target := by
  by_cases hguard : calculateCurrentPercentage attended total < target
  · exact ⟨0, 0, by unfold classesToBunk; rw [if_pos hguard]⟩
  · set b : ℕ := Nat.ceil (100 * (attended : ℚ) / target) with hb
    have hcond : calculateCurrentPercentage attended (total + (0 + b) + 1) < target := by
      rw [calculateCurrentPercentage_eq, if_neg (by omega)]
      have hden : (0 : ℚ) < ((total + (0 + b) + 1 : ℕ) : ℚ) := by
        have : 0 < total + (0 + b) + 1 := by omega
        exact_mod_cast this
      rw [div_lt_iff₀ hden]
      have hbq : 100 * (attended : ℚ) / target ≤ (b : ℚ) := Nat.le_ceil _
      have h1 : 100 * (attended : ℚ) ≤ (b : ℚ) * target :=
        (div_le_iff₀ htarget).mp hbq
      have hcast : ((total + (0 + b) + 1 : ℕ) : ℚ) = (total : ℚ) + (b : ℚ) + 1 := by
        push_cast
        ring
      rw [hcast]
      have h4 : (0 : ℚ) ≤ (total : ℚ) := Nat.cast_nonneg total
      nlinarith
    obtain ⟨m, hm⟩ := classesToBunkGo_isSome attended total target b 0 hcond
    exact ⟨b + 1, m, by unfold classesToBunk; rw [if_neg hguard]; exact hm⟩

/-- Witness for C4 at attended 30, total 35, target 75 > 0. -/
theorem classesToBunk_terminates_witness :
    (0 : ℚ) < 75 ∧ classesToBunkTerminates 30 35 75 :=
  ⟨by norm_num, classesToBunk_terminates 30 35 75 (by norm_num)⟩

/-- Claim C8: both fields are always computed, but at most one of `needed`
and `bunks_available` is nonzero: `classesNeededForTarget` returns 0 as soon
as the current percentage meets the target, `classesToBunk` returns 0 as
soon as it does not. -/
theorem projection_mutual_exclusion :
    ∀ (attended total : ℕ) (target : ℚ) (fuel : ℕ), attended ≤ total →
      (target ≤ calculateCurrentPercentage attended total →
          classesNeededForTarget attended total target fuel = some 0) ∧
        (calculateCurrentPercentage attended total < target →
          classesToBunk attended total target fuel = some 0) ∧
        ∀ k b, classesNeededForTarget attended total target fuel = some k →
          classesToBunk attended total target fuel = some b →
          k = 0 ∨ b = 0 := by
  intro attended total target fuel _
  refine ⟨fun h => ?_, fun h => ?_, fun k b hk hb => ?_⟩
  · unfold classesNeededForTarget
    rw [if_pos h]
  · unfold classesToBunk
    rw [if_pos h]
  · rcases le_or_lt target (calculateCurrentPercentage attended total) with hc | hc
    · left
      have h0 : classesNeededForTarget attended total target fuel = some 0 := by
        unfold classesNeededForTarget
        rw [if_pos hc]
      rw [h0] at hk
      exact (Option.some_inj.mp hk).symm
    · right
      have h0 : classesToBunk attended total target fuel = some 0 := by
        unfold classesToBunk
        rw [if_pos hc]
      rw [h0] at hb
      exact (Option.some_inj.mp hb).symm

/-- Witness for C8 at attended 30 ≤ total 35, target 75: the percentage
meets the target and `needed` is 0. -/
theorem projection_mutual_exclusion_witness :
    (30 : ℕ) ≤ 35 ∧ (75 : ℚ) ≤ calculateCurrentPercentage 30 35 ∧
      classesNeededForTarget 30 35 75 10 = some 0 :=
  ⟨by norm_num, by norm_num [calculateCurrentPercentage],
    (projection_mutual_exclusion 30 35 75 10 (by norm_num)).1
      (by norm_num [calculateCurrentPercentage])⟩
